import Mathlib

/-!
A shallow embedding of the symbol-graph construction subsystem of the
`goscope` repository (Go sources under `internal/extract` and
`internal/extract/di`), together with theorems settling the frozen claims
about it.

Embedding conventions:
* Source positions (`token.Pos`, and the `File`/`Line`/`Column` triple of a
  `types.Symbol`) are abstracted to a single `Nat` field `pos`.
* The Go program model (`packages.Package`, `go/types` objects) is embedded as
  a `Program`: the list of loaded package paths plus the list of top-level
  declarations, each carrying the resolved identifier/selector uses appearing
  in its body in source order (the result of `TypesInfo.Uses` during the
  `ast.Inspect` walk in `Collector.findReferences`).
* The `go/types` oracle queries used by the interface analyzer
  (`findObjectBySymbol` + signature inspection, `gotypes.Implements`,
  package-scope enumeration, constructor-body inference) are abstracted as an
  `Oracle` of black-box functions, mirroring the spec's treatment of the
  Program Model as an external collaborator.
-/

namespace GoScope

/-- `symbolKey` from the collector: the deduplication identity
`(package path, name, position)` used by the visited set. -/
structure SymbolKey where
  pkg : String
  name : String
  pos : Nat
deriving DecidableEq, Repr

/-- A resolved use (identifier or member selector) occurring in a declaration
body: the `gotypes.Object` that `TypesInfo.Uses` yields for it.  The
`construct` field records the syntactic construct at the use site (call, type
use, field access); `Collector.makeReference` never consults it, mirroring the
Go code, which sets `Reason` to the constant `"direct-call"`. -/
structure UseObj where
  pkg : String
  name : String
  pos : Nat
  kind : String := "func"
  exported : Bool := true
  construct : String := "call"
deriving DecidableEq, Repr

/-- A top-level declaration of the loaded module (a `FuncDecl` or `TypeSpec`
node together with its defining object).  `body` lists the resolved uses found
by walking the declaration, in source order. -/
structure Decl where
  pkg : String
  name : String
  pos : Nat
  isFunc : Bool := true
  code : String := ""
  body : List UseObj := []
deriving DecidableEq, Repr

/-- The loaded program model: package paths of the analyzed module
(`Collector.pkgs`) and its declarations. -/
structure Program where
  pkgs : List String
  decls : List Decl
deriving Repr

/-- `Collector.makeKey`: the visited-set key of a declaration. -/
def Decl.key (d : Decl) : SymbolKey := ⟨d.pkg, d.name, d.pos⟩

/-- `types.Symbol`, restricted to the fields the claims are about.  `pos`
abstracts the `File`/`Line`/`Column` triple. -/
structure Symbol where
  pkg : String := ""
  name : String := ""
  kind : String := ""
  pos : Nat := 0
  code : String := ""
  exported : Bool := false
  interfaceType : String := ""
  implementation : String := ""
deriving DecidableEq, Repr

/-- `types.Reference`.  The Go struct also has a `Signature` string for stubs;
`Collector.makeReference` never populates it, so it is modelled by `sigText`
staying `""`. -/
structure Reference where
  sym : Symbol
  reason : String := ""
  depth : Int := 0
  external : Bool := false
  stub : Bool := false
  sigText : String := ""
  referencedBy : String := ""
deriving DecidableEq, Repr

/-- `Collector.isExternal`: a package path is external when it is empty
(builtin) or not among the loaded packages. -/
def isExternalPkg (p : Program) (pkgPath : String) : Bool :=
  if pkgPath = "" then true else !(p.pkgs.contains pkgPath)

/-- `Collector.getFullSymbol`, reduced to the part the claims depend on: for an
internal object it locates the declaration at the object's position and reads
its source text; on failure the symbol keeps an empty `Code`. -/
def getFullCode (p : Program) (u : UseObj) : String :=
  match p.decls.find? (fun d => d.pkg == u.pkg && d.pos == u.pos) with
  | some d => d.code
  | none => ""

/-- `Collector.makeReference`: build a `Reference` (and the qualified external
name, or `""`) from a resolved use.  Builtin objects (empty package path)
yield no reference.  External references are stubs with no source body;
internal ones get position and source text. -/
def makeReference (p : Program) (u : UseObj) (depth : Int) (referencedBy : String) :
    Option Reference × String :=
  let isExt := isExternalPkg p u.pkg
  if u.pkg = "" then (none, "")
  else
    let base : Symbol := { pkg := u.pkg, name := u.name, kind := u.kind, exported := u.exported }
    let sym := if isExt then base else { base with pos := u.pos, code := getFullCode p u }
    let ref : Reference :=
      { sym := sym, depth := depth, external := isExt, stub := isExt,
        referencedBy := referencedBy, reason := "direct-call" }
    (some ref, if isExt then u.pkg ++ "." ++ u.name else "")

/-- One step of the `ast.Inspect` walk in `Collector.findReferences`: process
one resolved use, appending to the per-body reference list unless a reference
with the same `(package, name)` pair is already there, and to the per-body
external list unless already present. -/
def refStep (p : Program) (depth : Int) (fromName : String)
    (acc : List Reference × List String) (u : UseObj) : List Reference × List String :=
  let (found, ext) := makeReference p u depth fromName
  let refs := match found with
    | some ref =>
        if acc.1.any (fun e => e.sym.pkg == ref.sym.pkg && e.sym.name == ref.sym.name)
        then acc.1 else acc.1 ++ [ref]
    | none => acc.1
  let exts := if ext = "" then acc.2
    else if acc.2.contains ext then acc.2 else acc.2 ++ [ext]
  (refs, exts)

/-- `Collector.findReferences`: scan a declaration's body and return the
references found in it (deduplicated per body by `(package, name)`) together
with the external names it mentions. -/
def findReferences (p : Program) (d : Decl) (depth : Int) :
    List Reference × List String :=
  d.body.foldl (refStep p depth d.name) ([], [])

/-- `Collector.findSymbolByName` composed with `getObjectFromNode`: look up the
first declaration with the given name in the given (loaded) package, as an
index into `Program.decls`. -/
def findSymbolByNameIdx (p : Program) (pkgPath name : String) : Option Nat :=
  if p.pkgs.contains pkgPath then
    p.decls.findIdx? (fun d => d.pkg == pkgPath && d.name == name)
  else none

/-- Number of declaration keys not yet in the visited set; the termination
measure of the BFS, mirroring the spec's argument that the global visited set
guarantees termination. -/
def unseenCount (p : Program) (visited : List SymbolKey) : Nat :=
  ((p.decls.map Decl.key).filter (fun k => !(visited.contains k))).length

theorem filter_length_lt {α : Type} (l : List α) (pb qb : α → Bool)
    (hpq : ∀ a, pb a = true → qb a = true) (k : α) (hk : k ∈ l)
    (hq : qb k = true) (hp : pb k = false) :
    (l.filter pb).length < (l.filter qb).length := by
  induction l with
  | nil => cases hk
  | cons a t ih =>
    rw [List.filter_cons, List.filter_cons]
    rcases List.mem_cons.mp hk with rfl | hk'
    · rw [if_neg (by simp [hp]), if_pos (by simp [hq]), List.length_cons]
      exact Nat.lt_succ_of_le (List.Sublist.length_le (List.monotone_filter_right t hpq))
    · by_cases hpa : pb a = true
      · rw [if_pos (by simp [hpa]), if_pos (by simp [hpq a hpa]), List.length_cons,
          List.length_cons]
        exact Nat.succ_lt_succ (ih hk')
      · rw [if_neg (by simpa using hpa)]
        by_cases hqa : qb a = true
        · rw [if_pos (by simp [hqa]), List.length_cons]
          exact Nat.lt_succ_of_lt (ih hk')
        · rw [if_neg (by simpa using hqa)]
          exact ih hk'

theorem unseenCount_lt (p : Program) (visited : List SymbolKey) {d : Decl}
    (hd : d ∈ p.decls) (hnv : visited.contains d.key = false) :
    unseenCount p (d.key :: visited) < unseenCount p visited := by
  refine filter_length_lt (p.decls.map Decl.key) _ _ ?_ d.key
    (List.mem_map_of_mem Decl.key hd) (by simp_all) (by simp [List.contains_cons])
  intro a ha
  revert ha
  simp only [List.contains_cons, Bool.not_eq_true', Bool.or_eq_false_iff]
  exact fun h => h.2

/-- The internal-reference enqueueing step of the BFS loop: each non-external
reference with a nonempty name is resolved by `findSymbolByName` and, when
found, enqueued at the reference's depth. -/
def enqueueRefs (p : Program) (scanned : List Reference) : List (Nat × Int) :=
  scanned.filterMap (fun r =>
    if r.external = false ∧ r.sym.name ≠ "" then
      (findSymbolByNameIdx p r.sym.pkg r.sym.name).map (fun j => (j, r.depth))
    else none)

/-- The external-name accumulation of the BFS loop: append each new name to
the insertion-ordered deduplicated external list. -/
def mergeExternal (ext : List String) (scanned : List String) : List String :=
  scanned.foldl (fun acc e => if acc.contains e then acc else acc ++ [e]) ext

/-- The BFS loop of `Collector.Collect`.  The queue holds `(declaration index,
depth)` pairs (the Go queue holds the resolved `gotypes.Object`s themselves;
indices into `Program.decls` denote the same objects, the out-of-range case
playing the role of a `nil` object).  A dequeued entry is discarded when
already visited; otherwise it is marked visited, and — when its depth is below
`maxD` — its body is scanned, the references found are appended to the result,
internal ones are enqueued one depth deeper, and new external names are
appended to the deduplicated external list. -/
def collectLoop (p : Program) (maxD : Int) :
    List (Nat × Int) → List SymbolKey → List Reference → List String →
    List Reference × List String
  | [], _, refs, ext => (refs, ext)
  | (i, dep) :: rest, visited, refs, ext =>
    if hlt : i < p.decls.length then
      let d := p.decls.get ⟨i, hlt⟩
      if hvis : visited.contains d.key then
        collectLoop p maxD rest visited refs ext
      else if dep ≥ maxD then
        collectLoop p maxD rest (d.key :: visited) refs ext
      else
        collectLoop p maxD (rest ++ enqueueRefs p (findReferences p d (dep + 1)).1)
          (d.key :: visited) (refs ++ (findReferences p d (dep + 1)).1)
          (mergeExternal ext (findReferences p d (dep + 1)).2)
    else
      collectLoop p maxD rest visited refs ext
termination_by queue visited _ _ => (unseenCount p visited, queue.length)
decreasing_by
  all_goals
    first
    | exact Prod.Lex.right (unseenCount p visited) (Nat.lt_succ_self rest.length)
    | exact Prod.Lex.left _ _ (unseenCount_lt p visited (List.get_mem _ _ _)
        (by simpa using hvis))

/-- The target of an extraction, as far as `Collector.findSymbolNode` consults
it: package path, name and position. -/
structure TargetSym where
  pkg : String
  name : String
  pos : Nat
deriving DecidableEq, Repr

/-- `Collector.findSymbolNode` composed with `getObjectFromNode`: resolve the
target symbol to a declaration index.  Function declarations are matched by
name and position, type specs by name alone, first match winning; the target's
package must be among the loaded packages. -/
def findSymbolNodeIdx (p : Program) (t : TargetSym) : Option Nat :=
  if p.pkgs.contains t.pkg then
    p.decls.findIdx? (fun d => d.pkg == t.pkg &&
      ((d.isFunc && d.name == t.name && d.pos == t.pos) || (!d.isFunc && d.name == t.name)))
  else none

/-- `Collector.Collect`: depth 0 returns empty results immediately, before the
target is even resolved; otherwise the target is resolved (failure is an
error) and the BFS runs from `(target, 0)` with an empty visited set. -/
def collect (p : Program) (t : TargetSym) (maxD : Int) :
    Except String (List Reference × List String) :=
  if maxD = 0 then .ok ([], [])
  else
    match findSymbolNodeIdx p t with
    | none => .error "failed to find target symbol"
    | some i => .ok (collectLoop p maxD [(i, 0)] [] [] [])

/-! ## Interface/implementation analyzer (`interfaces.go`) -/

/-- `types.InterfaceMapping`. -/
structure InterfaceMapping where
  iface : Symbol
  implementations : List Symbol := []
  ctor : Option Symbol := none
  diFramework : String := ""
deriving DecidableEq, Repr

/-- The `go/types` queries the interface analyzer delegates to, abstracted as
black-box functions (the spec's Program Model collaborator):
`firstResultNamed pkg name` is the `(type name, type package)` of the named
type of the first declared result of the function `pkg.name`, when the
function resolves and its first result is a named type (the
`findObjectBySymbol` + `Signature.Results` inspection in `findConstructor`);
`implementsB s iface` is the structural-satisfaction test of
`findImplementations`/`implementsInterface` for value and pointer forms,
`false` when either symbol fails to resolve; `discovered s` are the interface
symbols of `s`'s own package scope that `s` satisfies, materialized by
`discoverInterfacesFromStructs`; `inferImpl s` is the composite-literal
heuristic of `findConstructorImplementation` (`""` when inference fails);
`ctorFramework s` is `detectConstructorFramework` for `s`'s package. -/
structure Oracle where
  firstResultNamed : String → String → Option (String × String)
  implementsB : Symbol → Symbol → Bool
  discovered : Symbol → List Symbol
  inferImpl : Symbol → String
  ctorFramework : Symbol → String

/-- `InterfaceAnalyzer.findInterfaces`: the symbols already tagged
`kind = "interface"`. -/
def findInterfaces (symbols : List Symbol) : List Symbol :=
  symbols.filter (fun s => s.kind == "interface")

/-- `InterfaceAnalyzer.discoverInterfacesFromStructs`: interfaces found in the
package scope of each collected struct symbol. -/
def discoverInterfacesFromStructs (o : Oracle) (symbols : List Symbol) : List Symbol :=
  symbols.foldl (fun acc s => if s.kind == "struct" then acc ++ o.discovered s else acc) []

/-- The deduplication key used for candidate interfaces in
`AnalyzeInterfaces`: `Package + "." + Name`. -/
def ifaceKey (s : Symbol) : String := s.pkg ++ "." ++ s.name

/-- The interface-deduplication pass of `AnalyzeInterfaces`: keep the first
occurrence of each key. -/
def dedupInterfaces (ifaces : List Symbol) : List Symbol :=
  (ifaces.foldl (fun (acc : List String × List Symbol) iface =>
    if acc.1.contains (ifaceKey iface) then acc
    else (acc.1 ++ [ifaceKey iface], acc.2 ++ [iface])) ([], [])).2

/-- `InterfaceAnalyzer.findImplementations`: the collected struct symbols that
structurally satisfy the interface. -/
def findImplementations (o : Oracle) (iface : Symbol) (symbols : List Symbol) :
    List Symbol :=
  symbols.filter (fun s => s.kind == "struct" && o.implementsB s iface)

/-- The constructor naming patterns of `InterfaceAnalyzer.findConstructor`. -/
def constructorPatterns (ifaceName : String) : List String :=
  ["New" ++ ifaceName, "Create" ++ ifaceName, "Make" ++ ifaceName]

/-- `InterfaceAnalyzer.findConstructor`: first collected function symbol whose
name matches a constructor pattern for the interface and whose first declared
result's named type equals the interface (same name and package).  The
returned copy is tagged with the interface name and the inferred concrete
implementation (kept unchanged when inference fails). -/
def findConstructor (o : Oracle) (iface : Symbol) : List Symbol → Option Symbol
  | [] => none
  | s :: rest =>
    if s.kind == "func" && (constructorPatterns iface.name).contains s.name then
      match o.firstResultNamed s.pkg s.name with
      | some (n, pk) =>
        if n == iface.name && pk == iface.pkg then
          some { s with
                   interfaceType := iface.name,
                   implementation := if o.inferImpl s ≠ "" then o.inferImpl s
                                     else s.implementation }
        else findConstructor o iface rest
      | none => findConstructor o iface rest
    else findConstructor o iface rest

/-- `InterfaceAnalyzer.AnalyzeInterfaces`: collect tagged and discovered
interfaces, deduplicate them by `(package, name)` key, and emit a mapping for
every interface having at least one implementation or a constructor. -/
def analyzeInterfaces (o : Oracle) (symbols : List Symbol) : List InterfaceMapping :=
  let interfaces := findInterfaces symbols ++ discoverInterfacesFromStructs o symbols
  let uniqueInterfaces := dedupInterfaces interfaces
  uniqueInterfaces.foldl (fun mappings iface =>
    let impls := findImplementations o iface symbols
    let c := findConstructor o iface symbols
    let mapping : InterfaceMapping :=
      { iface := iface, implementations := impls, ctor := c,
        diFramework := match c with
          | some ctor => o.ctorFramework ctor
          | none => "" }
    if impls.length > 0 ∨ c.isSome then mappings ++ [mapping] else mappings) []

/-- The `implements-interface` reference (implementation → interface)
synthesized by `ExtractInterfaceReferences`. -/
def implementsRefOf (depth : Int) (m : InterfaceMapping) (impl : Symbol) : Reference :=
  { sym := impl, reason := "implements-interface", depth := depth, external := false,
    referencedBy := m.iface.name }

/-- The reverse `interface-contract` reference (interface → implementation). -/
def contractRefOf (depth : Int) (m : InterfaceMapping) (impl : Symbol) : Reference :=
  { sym := m.iface, reason := "interface-contract", depth := depth, external := false,
    referencedBy := impl.name }

/-- The `returns-interface` reference for a mapping's constructor. -/
def returnsRefOf (depth : Int) (m : InterfaceMapping) (c : Symbol) : Reference :=
  { sym := c, reason := "returns-interface", depth := depth, external := false,
    referencedBy := m.iface.name }

/-- `ExtractInterfaceReferences`: synthesize `implements-interface` and
`interface-contract` references for every `(interface, implementation)` pair
and a `returns-interface` reference for every constructor, all at the given
depth. -/
def extractInterfaceReferences (mappings : List InterfaceMapping) (depth : Int) :
    List Reference :=
  mappings.foldl (fun refs m =>
    let refs1 := m.implementations.foldl (fun acc impl =>
      acc ++ [implementsRefOf depth m impl, contractRefOf depth m impl]) refs
    match m.ctor with
    | some c => refs1 ++ [returnsRefOf depth m c]
    | none => refs1) []

/-- The per-mapping contribution of `ExtractInterfaceReferences`. -/
def mappingRefs (depth : Int) (m : InterfaceMapping) : List Reference :=
  m.implementations.flatMap
    (fun impl => [implementsRefOf depth m impl, contractRefOf depth m impl]) ++
  (match m.ctor with
   | some c => [returnsRefOf depth m c]
   | none => [])

/-! ## Dependency-injection detector (`di` package) -/

/-- One parsed source file, as far as the DI detector consults it: its comment
texts and its import path values (with surrounding quotes, as in
`imp.Path.Value`). -/
structure DIFile where
  comments : List String := []
  imports : List String := []
deriving Repr

/-- One loaded package: its files and its package-scope functions as
`(name, parameter count)` pairs. -/
structure DIPkg where
  files : List DIFile := []
  scopeFuncs : List (String × Nat) := []
deriving Repr

/-- The loaded program as the DI `Detector` sees it. -/
structure DIProgram where
  pkgs : List DIPkg := []
deriving Repr

/-- `strings.Contains`. -/
def strContains (s pat : String) : Bool := decide (pat.toList <:+: s.toList)

/-- `Detector.hasWire`: a comment containing `wireinject` (the build-tag
convention) or an import of the wire package. -/
def hasWire (d : DIProgram) : Bool :=
  d.pkgs.any (fun p => p.files.any (fun f =>
    f.comments.any (fun c =>
      strContains c "wireinject" || strContains c "+build wireinject") ||
    f.imports.any (fun imp => imp == "\"github.com/google/wire\"")))

/-- `Detector.hasFx`: an import of the fx package. -/
def hasFx (d : DIProgram) : Bool :=
  d.pkgs.any (fun p => p.files.any (fun f =>
    f.imports.any (fun imp => imp == "\"go.uber.org/fx\"")))

/-- `Detector.hasManualDI`: some package-scope function named with a `New`
prefix that takes at least one parameter. -/
def hasManualDI (d : DIProgram) : Bool :=
  d.pkgs.any (fun p => p.scopeFuncs.any (fun f =>
    f.1.startsWith "New" && decide (0 < f.2)))

/-- `Detector.DetectFramework`: first-match-wins over wire, fx, manual. -/
def detectFramework (d : DIProgram) : String :=
  if hasWire d then "wire"
  else if hasFx d then "fx"
  else if hasManualDI d then "manual"
  else "none"

/-! ## `ExtractSymbol` pipeline (`collector.go`) -/

/-- `Locator.LocateSymbol`, abstracted to the declaration lookup the pipeline
needs: resolve the target to a declaration of the loaded program and
materialize its `Symbol` (the position-to-declaration walk of the locator is
outside the claims). -/
def locateSymbol (p : Program) (t : TargetSym) : Except String Symbol :=
  match findSymbolNodeIdx p t with
  | some i =>
    match p.decls[i]? with
    | some d => .ok { pkg := d.pkg, name := d.name, pos := d.pos, code := d.code,
                      kind := if d.isFunc then "func" else "type" }
    | none => .error "no symbol found"
  | none => .error "no symbol found"

/-- The fields of `types.Extract` assembled by `ExtractSymbol` that the claims
concern (the DI bindings, callers, metrics and graph fields are independent of
the collector and are omitted). -/
structure ExtractRes where
  target : Symbol
  references : List Reference
  external : List String
  mappings : List InterfaceMapping
  detectedDIFramework : String

/-- `ExtractSymbol`: normalize a negative requested depth to 1, locate the
target, collect dependencies, analyze interfaces over the target plus all
referenced symbols, append the synthesized interface references at one past
the traversal depth, and detect the DI framework. -/
def extractSymbolRun (p : Program) (o : Oracle) (dip : DIProgram) (t : TargetSym)
    (depth : Int) : Except String ExtractRes :=
  let nd := if depth < 0 then 1 else depth
  match locateSymbol p t with
  | .error e => .error e
  | .ok sym =>
    match collect p t nd with
    | .error e => .error e
    | .ok (references, external) =>
      let allSymbols := sym :: references.map (fun r => r.sym)
      let mappings := analyzeInterfaces o allSymbols
      let refs2 := references ++ extractInterfaceReferences mappings (nd + 1)
      .ok { target := sym, references := refs2, external := external,
            mappings := mappings, detectedDIFramework := detectFramework dip }

/-! ## Concrete example modules used to settle the claims -/

/-- The use of `B` inside `A`'s body in the two-node cyclic module. -/
def useB : UseObj := { pkg := "m", name := "B", pos := 2 }

/-- The use of `A` inside `B`'s body in the two-node cyclic module. -/
def useA : UseObj := { pkg := "m", name := "A", pos := 1 }

/-- Function `A`, whose body references `B`. -/
def declA : Decl :=
  { pkg := "m", name := "A", pos := 1, isFunc := true, code := "func A()", body := [useB] }

/-- Function `B`, whose body references `A`: together with `A` a cyclic
reference graph. -/
def declB : Decl :=
  { pkg := "m", name := "B", pos := 2, isFunc := true, code := "func B()", body := [useA] }

/-- The two-node cyclic module (A references B, B references A). -/
def cycProgram : Program := { pkgs := ["m"], decls := [declA, declB] }

/-- Extraction target `A` of the cyclic module. -/
def cycTarget : TargetSym := { pkg := "m", name := "A", pos := 1 }

/-- The reference to `B` recorded while scanning `A` at depth 1. -/
def refB1 : Reference :=
  { sym := { pkg := "m", name := "B", kind := "func", pos := 2,
             code := "func B()", exported := true },
    reason := "direct-call", depth := 1, external := false, stub := false,
    referencedBy := "A" }

/-- The reference back to `A` recorded while scanning `B` at depth 2. -/
def refA2 : Reference :=
  { sym := { pkg := "m", name := "A", kind := "func", pos := 1,
             code := "func A()", exported := true },
    reason := "direct-call", depth := 2, external := false, stub := false,
    referencedBy := "B" }

def useG : UseObj := { pkg := "m2", name := "G", pos := 2 }

def useH : UseObj := { pkg := "m2", name := "H", pos := 3 }

def useF : UseObj := { pkg := "m2", name := "F", pos := 4 }

def declT : Decl :=
  { pkg := "m2", name := "T", pos := 1, isFunc := true, code := "func T()",
    body := [useG, useH] }

def declG : Decl :=
  { pkg := "m2", name := "G", pos := 2, isFunc := true, code := "func G()", body := [useF] }

def declH : Decl :=
  { pkg := "m2", name := "H", pos := 3, isFunc := true, code := "func H()", body := [useF] }

def declF : Decl :=
  { pkg := "m2", name := "F", pos := 4, isFunc := true, code := "func F()", body := [] }

/-- A diamond-shaped module: `T` calls `G` and `H`, and both `G` and `H` call
the shared helper `F`. -/
def diamondProgram : Program :=
  { pkgs := ["m2"], decls := [declT, declG, declH, declF] }

def diamondTarget : TargetSym := { pkg := "m2", name := "T", pos := 1 }

def refG1 : Reference :=
  { sym := { pkg := "m2", name := "G", kind := "func", pos := 2,
             code := "func G()", exported := true },
    reason := "direct-call", depth := 1, external := false, stub := false,
    referencedBy := "T" }

def refH1 : Reference :=
  { sym := { pkg := "m2", name := "H", kind := "func", pos := 3,
             code := "func H()", exported := true },
    reason := "direct-call", depth := 1, external := false, stub := false,
    referencedBy := "T" }

/-- The record of `F` produced while scanning `G`. -/
def refF2G : Reference :=
  { sym := { pkg := "m2", name := "F", kind := "func", pos := 4,
             code := "func F()", exported := true },
    reason := "direct-call", depth := 2, external := false, stub := false,
    referencedBy := "G" }

/-- The second record of `F`, produced while scanning `H`. -/
def refF2H : Reference :=
  { sym := { pkg := "m2", name := "F", kind := "func", pos := 4,
             code := "func F()", exported := true },
    reason := "direct-call", depth := 2, external := false, stub := false,
    referencedBy := "H" }

def useY : UseObj := { pkg := "m4", name := "Y", pos := 2 }

/-- A use of `fmt.Println`: its package is not among the loaded packages. -/
def usePrintln : UseObj := { pkg := "fmt", name := "Println", pos := 90 }

def declX : Decl :=
  { pkg := "m4", name := "X", pos := 1, isFunc := true, code := "func X()",
    body := [useY, usePrintln] }

def declY : Decl :=
  { pkg := "m4", name := "Y", pos := 2, isFunc := true, code := "func Y()", body := [] }

/-- A module with one internal reference (`Y`) and one external one
(`fmt.Println`). -/
def extProgram : Program := { pkgs := ["m4"], decls := [declX, declY] }

def extTarget : TargetSym := { pkg := "m4", name := "X", pos := 1 }

def refY1 : Reference :=
  { sym := { pkg := "m4", name := "Y", kind := "func", pos := 2,
             code := "func Y()", exported := true },
    reason := "direct-call", depth := 1, external := false, stub := false,
    referencedBy := "X" }

def refPrintln1 : Reference :=
  { sym := { pkg := "fmt", name := "Println", kind := "func", exported := true },
    reason := "direct-call", depth := 1, external := true, stub := true,
    referencedBy := "X" }

/-- A use site that is a type reference (the type `Ty` used in a variable
declaration), recorded in the `construct` field which the Go collector never
reads. -/
def useTy : UseObj :=
  { pkg := "m5", name := "Ty", pos := 2, kind := "type", construct := "type-use" }

def declU : Decl :=
  { pkg := "m5", name := "U", pos := 1, isFunc := true, code := "func U()",
    body := [useTy] }

def declTy : Decl :=
  { pkg := "m5", name := "Ty", pos := 2, isFunc := false,
    code := "type Ty", body := [] }

/-- A module whose target's body contains a type use. -/
def typeUseProgram : Program := { pkgs := ["m5"], decls := [declU, declTy] }

def typeUseTarget : TargetSym := { pkg := "m5", name := "U", pos := 1 }

/-- The single reference collected from the type-use module: a type use
tagged `"direct-call"`. -/
def refTy1 : Reference :=
  { sym := { pkg := "m5", name := "Ty", kind := "type", pos := 2,
             code := "type Ty", exported := true },
    reason := "direct-call", depth := 1, external := false, stub := false,
    referencedBy := "U" }

/-- The interface symbol `q.I` of the sample mapping. -/
def ifaceI : Symbol := { pkg := "q", name := "I", kind := "interface" }

/-- The implementing struct `q.S` of the sample mapping. -/
def implS : Symbol := { pkg := "q", name := "S", kind := "struct" }

/-- A sample interface mapping with one implementation and no constructor. -/
def sampleMapping : InterfaceMapping :=
  { iface := ifaceI, implementations := [implS], ctor := none }

/-- The interface symbol `q.J` of the constructor sample. -/
def ifaceJ : Symbol := { pkg := "q", name := "J", kind := "interface" }

/-- The constructor function `q.NewJ` of the sample. -/
def ctorNewJ : Symbol := { pkg := "q", name := "NewJ", kind := "func" }

/-- A concrete oracle: `NewJ`'s first result is the named type `q.J`;
structural satisfaction and discovery are empty; inference fails. -/
def c8Oracle : Oracle :=
  { firstResultNamed := fun pk n => if pk = "q" ∧ n = "NewJ" then some ("J", "q") else none,
    implementsB := fun _ _ => false,
    discovered := fun _ => [],
    inferImpl := fun _ => "",
    ctorFramework := fun _ => "manual" }

/-- The constructor copy that `findConstructor` returns for the sample. -/
def ctorNewJFound : Symbol := { pkg := "q", name := "NewJ", kind := "func",
                                interfaceType := "J" }

/-- A one-package program importing the wire package, which also matches the
manual convention. -/
def wireProgram : DIProgram :=
  { pkgs := [{ files := [{ comments := [],
                           imports := ["\"github.com/google/wire\""] }],
               scopeFuncs := [("NewThing", 1)] }] }

/-- An empty DI program. -/
def emptyDIProgram : DIProgram := { pkgs := [] }

/-! ## Generic lemmas about the collector -/

theorem makeReference_some (p : Program) (u : UseObj) (k : Int) (fn : String)
    (ref : Reference) (h : (makeReference p u k fn).1 = some ref) :
    ref.depth = k ∧ ref.reason = "direct-call" ∧
    ref.external = isExternalPkg p u.pkg ∧ ref.stub = isExternalPkg p u.pkg ∧
    ref.sym.pkg = u.pkg ∧ ref.sym.name = u.name ∧
    (isExternalPkg p u.pkg = true → ref.sym.code = "") := by
  unfold makeReference at h
  by_cases hpkg : u.pkg = ""
  · simp [hpkg] at h
  · by_cases hext : isExternalPkg p u.pkg = true
    · simp only [hpkg, if_false, hext, if_true] at h
      cases h
      simp [hext]
    · simp only [hpkg, if_false, Bool.not_eq_true] at h
      rw [Bool.not_eq_true] at hext
      simp only [hext, Bool.false_eq_true, if_false] at h
      cases h
      simp [hext]

theorem refStep_mem (p : Program) (k : Int) (fn : String)
    (acc : List Reference × List String) (u : UseObj) (r : Reference)
    (hr : r ∈ (refStep p k fn acc u).1) :
    r ∈ acc.1 ∨ (makeReference p u k fn).1 = some r := by
  unfold refStep at hr
  cases hm : (makeReference p u k fn) with
  | mk found ext =>
    cases found with
    | none => simp [hm] at hr; exact Or.inl hr
    | some ref =>
      simp only [hm] at hr
      by_cases hany : acc.1.any (fun e => e.sym.pkg == ref.sym.pkg && e.sym.name == ref.sym.name)
      · simp [hany] at hr
        exact Or.inl hr
      · simp only [Bool.not_eq_true] at hany
        simp [hany] at hr
        rcases hr with hr | hr
        · exact Or.inl hr
        · subst hr; exact Or.inr (by simp [hm])

theorem foldl_refStep_pred (p : Program) (k : Int) (fn : String)
    (P : Reference → Prop)
    (hmk : ∀ u ref, (makeReference p u k fn).1 = some ref → P ref)
    (body : List UseObj) :
    ∀ (acc : List Reference × List String), (∀ r ∈ acc.1, P r) →
      ∀ r ∈ (body.foldl (refStep p k fn) acc).1, P r := by
  induction body with
  | nil => intro acc hacc r hr; exact hacc r hr
  | cons u rest ih =>
    intro acc hacc r hr
    rw [List.foldl_cons] at hr
    refine ih (refStep p k fn acc u) ?_ r hr
    intro r' hr'
    rcases refStep_mem p k fn acc u r' hr' with h | h
    · exact hacc r' h
    · exact hmk u r' h

theorem findReferences_pred (p : Program) (d : Decl) (k : Int)
    (P : Reference → Prop)
    (hmk : ∀ u ref, (makeReference p u k d.name).1 = some ref → P ref) :
    ∀ r ∈ (findReferences p d k).1, P r :=
  foldl_refStep_pred p k d.name P hmk d.body ([], []) (by intro r hr; cases hr)

theorem findReferences_depth (p : Program) (d : Decl) (k : Int) :
    ∀ r ∈ (findReferences p d k).1, r.depth = k :=
  findReferences_pred p d k (fun r => r.depth = k)
    (fun u ref h => (makeReference_some p u k d.name ref h).1)

theorem collectLoop_refs_pred (p : Program) (maxD : Int) (P : Reference → Prop)
    (hP : ∀ (d : Decl) (dep : Int), 0 ≤ dep → ¬ dep ≥ maxD →
      ∀ r ∈ (findReferences p d (dep + 1)).1, P r) :
    ∀ (queue : List (Nat × Int)) (visited : List SymbolKey)
      (refs : List Reference) (ext : List String),
      (∀ x ∈ queue, 0 ≤ x.2) → (∀ r ∈ refs, P r) →
      ∀ r ∈ (collectLoop p maxD queue visited refs ext).1, P r := by
  intro queue visited refs ext
  induction queue, visited, refs, ext using collectLoop.induct p maxD with
  | case1 visited refs ext =>
    intro _ hacc
    rw [collectLoop.eq_def]
    exact hacc
  | case2 i dep rest visited refs ext hlt d hvis ih =>
    intro hq hacc
    rw [collectLoop.eq_def]
    simp only [hlt, dif_pos, hvis, if_pos]
    exact ih (fun x hx => hq x (List.mem_cons_of_mem _ hx)) hacc
  | case3 i dep rest visited refs ext hlt d hvis hdeep ih =>
    intro hq hacc
    rw [collectLoop.eq_def]
    simp only [hlt, dif_pos, hvis, if_neg, hdeep, if_pos]
    exact ih (fun x hx => hq x (List.mem_cons_of_mem _ hx)) hacc
  | case4 i dep rest visited refs ext hlt d hvis hdeep ih =>
    intro hq hacc
    have hdep0 : (0 : Int) ≤ dep := hq (i, dep) (List.mem_cons_self _ _)
    have hnew : ∀ r ∈ (findReferences p d (dep + 1)).1, P r :=
      hP d dep hdep0 hdeep
    rw [collectLoop.eq_def]
    simp only [hlt, dif_pos, hvis, if_neg, hdeep]
    refine ih ?_ ?_
    · intro x hx
      rcases List.mem_append.mp hx with hx | hx
      · exact hq x (List.mem_cons_of_mem _ hx)
      · unfold enqueueRefs at hx
        rcases List.mem_filterMap.mp hx with ⟨r0, hr0, hmap⟩
        by_cases hc : r0.external = false ∧ r0.sym.name ≠ ""
        · rw [if_pos hc] at hmap
          rcases Option.map_eq_some'.mp hmap with ⟨j, hj, rfl⟩
          have := findReferences_depth p d (dep + 1) r0 hr0
          simp [this]
          omega
        · simp [hc] at hmap
    · intro r hr
      rcases List.mem_append.mp hr with hr | hr
      · exact hacc r hr
      · exact hnew r hr
  | case5 i dep rest visited refs ext hlt ih =>
    intro hq hacc
    rw [collectLoop.eq_def]
    simp only [hlt, dif_neg]
    exact ih (fun x hx => hq x (List.mem_cons_of_mem _ hx)) hacc

theorem collect_refs_pred (p : Program) (t : TargetSym) (maxD : Int)
    (refs : List Reference) (ext : List String) (P : Reference → Prop)
    (hP : ∀ (d : Decl) (dep : Int), 0 ≤ dep → ¬ dep ≥ maxD →
      ∀ r ∈ (findReferences p d (dep + 1)).1, P r)
    (hok : collect p t maxD = .ok (refs, ext)) :
    ∀ r ∈ refs, P r := by
  unfold collect at hok
  by_cases h0 : maxD = 0
  · rw [if_pos h0] at hok
    cases hok
    intro r hr
    cases hr
  · rw [if_neg h0] at hok
    cases hidx : findSymbolNodeIdx p t with
    | none => rw [hidx] at hok; cases hok
    | some j =>
      rw [hidx] at hok
      dsimp only at hok
      have h2 := Except.ok.inj hok
      have heq : refs = (collectLoop p maxD [(j, 0)] [] [] []).1 := by
        rw [h2]
      intro r hr
      rw [heq] at hr
      refine collectLoop_refs_pred p maxD P hP [(j, 0)] [] [] [] ?_ ?_ r hr
      · intro x hx
        rcases List.mem_cons.mp hx with rfl | hx
        · exact le_refl 0
        · cases hx
      · intro r0 hr0
        cases hr0


/-! ## Interface/DI analyzer lemmas, concrete runs and the claims -/

theorem foldl_refStep_pairwise (p : Program) (k : Int) (fn : String) (body : List UseObj) :
    ∀ acc : List Reference × List String,
      acc.1.Pairwise (fun r1 r2 => ¬(r1.sym.pkg = r2.sym.pkg ∧ r1.sym.name = r2.sym.name)) →
      (body.foldl (refStep p k fn) acc).1.Pairwise
        (fun r1 r2 => ¬(r1.sym.pkg = r2.sym.pkg ∧ r1.sym.name = r2.sym.name)) := by
  induction body with
  | nil => intro acc h; exact h
  | cons u rest ih =>
    intro acc hacc
    rw [List.foldl_cons]
    refine ih _ ?_
    unfold refStep
    cases hm : makeReference p u k fn with
    | mk found ext =>
      cases found with
      | none => simpa [hm] using hacc
      | some ref =>
        by_cases hany : acc.1.any (fun e => e.sym.pkg == ref.sym.pkg && e.sym.name == ref.sym.name) = true
        · simpa [hm, hany] using hacc
        · rw [Bool.not_eq_true] at hany
          simp only [hm, hany, Bool.false_eq_true, if_false]
          rw [List.pairwise_append]
          refine ⟨hacc, List.pairwise_singleton _ _, ?_⟩
          intro a ha b hb
          rw [List.mem_singleton] at hb
          subst hb
          rw [List.any_eq_false] at hany
          have := hany a ha
          intro hcon
          apply this
          simp [hcon.1, hcon.2]

theorem isExternalPkg_false (p : Program) (s : String)
    (h : isExternalPkg p s = false) : p.pkgs.contains s = true := by
  unfold isExternalPkg at h
  by_cases hs : s = ""
  · rw [if_pos hs] at h
    cases h
  · rw [if_neg hs] at h
    simpa using h

theorem contains_of_mem {α : Type} [DecidableEq α] (l : List α) (x : α) (h : x ∈ l) :
    l.contains x = true := by simpa using h

theorem mem_of_contains {α : Type} [DecidableEq α] (l : List α) (x : α)
    (h : l.contains x = true) : x ∈ l := by simpa using h

theorem foldl_step_append {α β : Type} (g : β → List α) (step : List α → β → List α)
    (hstep : ∀ acc m, step acc m = acc ++ g m) :
    ∀ (l : List β) (acc : List α), l.foldl step acc = acc ++ l.flatMap g := by
  intro l
  induction l with
  | nil => intro acc; simp
  | cons m t ih =>
    intro acc
    rw [List.foldl_cons, hstep, ih]
    simp [List.flatMap_cons, List.append_assoc]

theorem extractInterfaceReferences_eq_bind (ms : List InterfaceMapping) (depth : Int) :
    extractInterfaceReferences ms depth = ms.flatMap (mappingRefs depth) := by
  unfold extractInterfaceReferences
  refine foldl_step_append (mappingRefs depth) _ ?_ ms []
  intro acc m
  dsimp only
  rw [foldl_step_append
    (fun impl => [implementsRefOf depth m impl, contractRefOf depth m impl])
    _ (fun a i => rfl) m.implementations acc]
  unfold mappingRefs
  cases hc : m.ctor with
  | some c =>
    simp only [hc]
    rw [List.append_assoc]
  | none =>
    simp only [hc]
    simp

theorem mem_extractInterfaceReferences (ms : List InterfaceMapping) (depth : Int)
    (r : Reference) :
    r ∈ extractInterfaceReferences ms depth ↔
      ∃ m ∈ ms,
        (∃ impl ∈ m.implementations,
          r = implementsRefOf depth m impl ∨ r = contractRefOf depth m impl) ∨
        (∃ c, m.ctor = some c ∧ r = returnsRefOf depth m c) := by
  rw [extractInterfaceReferences_eq_bind, List.mem_flatMap]
  constructor
  · rintro ⟨m, hm, hr⟩
    refine ⟨m, hm, ?_⟩
    unfold mappingRefs at hr
    rcases List.mem_append.mp hr with hr | hr
    · rcases List.mem_flatMap.mp hr with ⟨impl, himpl, hr2⟩
      rcases List.mem_cons.mp hr2 with rfl | hr3
      · exact Or.inl ⟨impl, himpl, Or.inl rfl⟩
      · rcases List.mem_singleton.mp hr3 with rfl
        exact Or.inl ⟨impl, himpl, Or.inr rfl⟩
    · cases hc : m.ctor with
      | some c =>
        rw [hc] at hr
        rcases List.mem_singleton.mp hr with rfl
        exact Or.inr ⟨c, rfl, rfl⟩
      | none =>
        rw [hc] at hr
        cases hr
  · rintro ⟨m, hm, hcase⟩
    refine ⟨m, hm, ?_⟩
    unfold mappingRefs
    rcases hcase with ⟨impl, himpl, hor⟩ | ⟨c, hc, rfl⟩
    · refine List.mem_append.mpr (Or.inl (List.mem_flatMap.mpr ⟨impl, himpl, ?_⟩))
      rcases hor with rfl | rfl
      · exact List.mem_cons_self _ _
      · exact List.mem_cons_of_mem _ (List.mem_singleton.mpr rfl)
    · rw [hc]
      exact List.mem_append.mpr (Or.inr (List.mem_singleton.mpr rfl))

theorem findConstructor_sound (o : Oracle) (iface : Symbol) :
    ∀ (symbols : List Symbol) (c : Symbol), findConstructor o iface symbols = some c →
      c.kind = "func" ∧
      (c.name = "New" ++ iface.name ∨ c.name = "Create" ++ iface.name ∨
        c.name = "Make" ++ iface.name) ∧
      o.firstResultNamed c.pkg c.name = some (iface.name, iface.pkg) := by
  intro symbols
  induction symbols with
  | nil =>
    intro c h
    cases h
  | cons s rest ih =>
    intro c h
    unfold findConstructor at h
    by_cases h1 : (s.kind == "func" && (constructorPatterns iface.name).contains s.name) = true
    · rw [if_pos h1] at h
      cases hfr : o.firstResultNamed s.pkg s.name with
      | none =>
        rw [hfr] at h
        exact ih c h
      | some pr =>
        obtain ⟨n, pk⟩ := pr
        rw [hfr] at h
        dsimp only at h
        by_cases h2 : (n == iface.name && pk == iface.pkg) = true
        · rw [if_pos h2] at h
          rw [Bool.and_eq_true, beq_iff_eq, beq_iff_eq] at h2
          rw [Bool.and_eq_true, beq_iff_eq] at h1
          cases h
          refine ⟨h1.1, ?_, ?_⟩
          · have := h1.2
            simp only [constructorPatterns, List.contains_cons, List.contains_nil,
              Bool.or_eq_true, beq_iff_eq] at this
            simpa using this
          · rw [hfr, h2.1, h2.2]
        · rw [if_neg h2] at h
          exact ih c h
    · rw [if_neg h1] at h
      exact ih c h

theorem dedup_fold_spec (l : List Symbol) :
    ∀ acc : List String × List Symbol,
      (∀ s ∈ acc.2, acc.1.contains (ifaceKey s) = true) →
      acc.2.Pairwise (fun a b => ifaceKey a ≠ ifaceKey b) →
      (∀ s ∈ (l.foldl (fun (acc : List String × List Symbol) iface =>
          if acc.1.contains (ifaceKey iface) then acc
          else (acc.1 ++ [ifaceKey iface], acc.2 ++ [iface])) acc).2,
        (l.foldl (fun (acc : List String × List Symbol) iface =>
          if acc.1.contains (ifaceKey iface) then acc
          else (acc.1 ++ [ifaceKey iface], acc.2 ++ [iface])) acc).1.contains
          (ifaceKey s) = true) ∧
      (l.foldl (fun (acc : List String × List Symbol) iface =>
          if acc.1.contains (ifaceKey iface) then acc
          else (acc.1 ++ [ifaceKey iface], acc.2 ++ [iface])) acc).2.Pairwise
        (fun a b => ifaceKey a ≠ ifaceKey b) := by
  induction l with
  | nil => intro acc h1 h2; exact ⟨h1, h2⟩
  | cons x t ih =>
    intro acc h1 h2
    rw [List.foldl_cons]
    by_cases hx : acc.1.contains (ifaceKey x) = true
    · rw [if_pos hx]
      exact ih acc h1 h2
    · rw [Bool.not_eq_true] at hx
      rw [hx]
      simp only [Bool.false_eq_true, if_false]
      refine ih _ ?_ ?_
      · intro s hs
        rcases List.mem_append.mp hs with hs | hs
        · exact contains_of_mem _ _
            (List.mem_append.mpr (Or.inl (mem_of_contains _ _ (h1 s hs))))
        · rcases List.mem_singleton.mp hs with rfl
          exact contains_of_mem _ _
            (List.mem_append.mpr (Or.inr (List.mem_singleton.mpr rfl)))
      · rw [List.pairwise_append]
        refine ⟨h2, List.pairwise_singleton _ _, ?_⟩
        intro a ha b hb
        rcases List.mem_singleton.mp hb with rfl
        intro hcon
        have := h1 a ha
        rw [hcon] at this
        rw [this] at hx
        cases hx

theorem dedupInterfaces_keys (l : List Symbol) :
    (dedupInterfaces l).Pairwise (fun a b => ifaceKey a ≠ ifaceKey b) := by
  unfold dedupInterfaces
  exact (dedup_fold_spec l ([], []) (by intro s hs; cases hs) List.Pairwise.nil).2

theorem pairwise_imp_mem {α : Type} {R S : α → α → Prop} :
    ∀ {l : List α}, (∀ a b, a ∈ l → b ∈ l → R a b → S a b) → l.Pairwise R →
      l.Pairwise S := by
  intro l
  induction l with
  | nil => intro _ _; exact List.Pairwise.nil
  | cons x t ih =>
    intro h hp
    rcases List.pairwise_cons.mp hp with ⟨hx, ht⟩
    refine List.pairwise_cons.mpr ⟨?_, ih ?_ ht⟩
    · intro b hb
      exact h x b (List.mem_cons_self _ _) (List.mem_cons_of_mem _ hb) (hx b hb)
    · intro a b ha hb
      exact h a b (List.mem_cons_of_mem _ ha) (List.mem_cons_of_mem _ hb)

theorem analyze_fold_spec (o : Oracle) (symbols : List Symbol) :
    ∀ (l : List Symbol), l.Pairwise (fun a b => ifaceKey a ≠ ifaceKey b) →
    ∀ acc : List InterfaceMapping,
      acc.Pairwise (fun m1 m2 => ifaceKey m1.iface ≠ ifaceKey m2.iface) →
      (∀ m ∈ acc, m.ctor = findConstructor o m.iface symbols) →
      (∀ m ∈ acc, ∀ i ∈ l, ifaceKey m.iface ≠ ifaceKey i) →
      (l.foldl (fun mappings iface =>
        let impls := findImplementations o iface symbols
        let c := findConstructor o iface symbols
        let mapping : InterfaceMapping :=
          { iface := iface, implementations := impls, ctor := c,
            diFramework := match c with
              | some ctor => o.ctorFramework ctor
              | none => "" }
        if impls.length > 0 ∨ c.isSome then mappings ++ [mapping] else mappings) acc).Pairwise
          (fun m1 m2 => ifaceKey m1.iface ≠ ifaceKey m2.iface) ∧
      ∀ m ∈ (l.foldl (fun mappings iface =>
        let impls := findImplementations o iface symbols
        let c := findConstructor o iface symbols
        let mapping : InterfaceMapping :=
          { iface := iface, implementations := impls, ctor := c,
            diFramework := match c with
              | some ctor => o.ctorFramework ctor
              | none => "" }
        if impls.length > 0 ∨ c.isSome then mappings ++ [mapping] else mappings) acc),
        m.ctor = findConstructor o m.iface symbols := by
  intro l
  induction l with
  | nil =>
    intro _ acc h2 h3 _
    exact ⟨h2, h3⟩
  | cons x t ih =>
    intro hl acc h2 h3 h4
    rcases List.pairwise_cons.mp hl with ⟨hxk, htk⟩
    rw [List.foldl_cons]
    dsimp only
    by_cases hcond : (findImplementations o x symbols).length > 0 ∨
        (findConstructor o x symbols).isSome
    · rw [if_pos hcond]
      refine ih htk _ ?_ ?_ ?_
      · rw [List.pairwise_append]
        refine ⟨h2, List.pairwise_singleton _ _, ?_⟩
        intro m hm b hb
        rcases List.mem_singleton.mp hb with rfl
        exact h4 m hm x (List.mem_cons_self _ _)
      · intro m hm
        rcases List.mem_append.mp hm with hm | hm
        · exact h3 m hm
        · rcases List.mem_singleton.mp hm with rfl
          rfl
      · intro m hm i hi
        rcases List.mem_append.mp hm with hm | hm
        · exact h4 m hm i (List.mem_cons_of_mem _ hi)
        · rcases List.mem_singleton.mp hm with rfl
          exact hxk i hi
    · rw [if_neg hcond]
      refine ih htk acc h2 h3 ?_
      intro m hm i hi
      exact h4 m hm i (List.mem_cons_of_mem _ hi)

theorem analyzeInterfaces_spec (o : Oracle) (symbols : List Symbol) :
    (analyzeInterfaces o symbols).Pairwise
      (fun m1 m2 => ifaceKey m1.iface ≠ ifaceKey m2.iface) ∧
    ∀ m ∈ analyzeInterfaces o symbols, m.ctor = findConstructor o m.iface symbols := by
  unfold analyzeInterfaces
  exact analyze_fold_spec o symbols _
    (dedupInterfaces_keys (findInterfaces symbols ++ discoverInterfacesFromStructs o symbols))
    [] List.Pairwise.nil (by intro m hm; cases hm) (by intro m hm i _; cases hm)

theorem collect_cyc_one :
    collect cycProgram cycTarget 1 = .ok ([refB1], []) := by
  simp +decide [collect, collectLoop.eq_def, findSymbolNodeIdx, findReferences, refStep,
    makeReference, isExternalPkg, getFullCode, findSymbolByNameIdx, enqueueRefs,
    mergeExternal, Decl.key, cycProgram, cycTarget, declA, declB, useA, useB, refB1]

theorem collect_cyc_ge_two (D : Int) (h : 2 ≤ D) :
    collect cycProgram cycTarget D = .ok ([refB1, refA2], []) := by
  simp +decide [collect, collectLoop.eq_def, findSymbolNodeIdx, findReferences, refStep,
    makeReference, isExternalPkg, getFullCode, findSymbolByNameIdx, enqueueRefs,
    mergeExternal, Decl.key, cycProgram, cycTarget, declA, declB, useA, useB, refB1, refA2,
    show ¬(D = 0) from by omega, show ¬((0:Int) ≥ D) from by omega,
    show ¬((1:Int) ≥ D) from by omega]

theorem collect_diamond_two :
    collect diamondProgram diamondTarget 2 = .ok ([refG1, refH1, refF2G, refF2H], []) := by
  simp +decide [collect, collectLoop.eq_def, findSymbolNodeIdx, findReferences, refStep,
    makeReference, isExternalPkg, getFullCode, findSymbolByNameIdx, enqueueRefs,
    mergeExternal, Decl.key, diamondProgram, diamondTarget, declT, declG, declH, declF,
    useG, useH, useF, refG1, refH1, refF2G, refF2H]

theorem collect_ext_one :
    collect extProgram extTarget 1 = .ok ([refY1, refPrintln1], ["fmt.Println"]) := by
  simp +decide [collect, collectLoop.eq_def, findSymbolNodeIdx, findReferences, refStep,
    makeReference, isExternalPkg, getFullCode, findSymbolByNameIdx, enqueueRefs,
    mergeExternal, Decl.key, extProgram, extTarget, declX, declY, useY, usePrintln,
    refY1, refPrintln1]

theorem collect_type_use_one :
    collect typeUseProgram typeUseTarget 1 = .ok ([refTy1], []) := by
  simp +decide [collect, collectLoop.eq_def, findSymbolNodeIdx, findReferences, refStep,
    makeReference, isExternalPkg, getFullCode, findSymbolByNameIdx, enqueueRefs,
    mergeExternal, Decl.key, typeUseProgram, typeUseTarget, declU, declTy, useTy, refTy1]

/-- C1 counterexample: at maximum depth D = 1 — a depth the claim quantifies
over — extracting `A` from the cyclic module yields a result in which `A`
appears zero times, not exactly once (only `B` is recorded). -/
theorem c1_counterexample :
    collect cycProgram cycTarget 1 = .ok ([refB1], []) ∧
    (([refB1] : List Reference).filter (fun r => r.sym.name == "A")).length = 0 ∧
    (([refB1] : List Reference).filter (fun r => r.sym.name == "B")).length = 1 :=
  ⟨collect_cyc_one, by decide, by decide⟩

/-- C1 (amended): for every maximum depth D ≥ 1, `Collect` on the cyclic
two-node module terminates with an ok result (termination for arbitrary
graphs is witnessed by `collect` being a total function, whose termination
measure is the visited set); `B` appears in the reference list exactly once,
and `A` appears exactly once when D ≥ 2 and zero times when D = 1. -/
theorem c1_cyclic_each_at_most_once (D : Int) (h : 1 ≤ D) :
    ∃ refs extl, collect cycProgram cycTarget D = .ok (refs, extl) ∧
      (refs.filter (fun r => r.sym.name == "B")).length = 1 ∧
      (refs.filter (fun r => r.sym.name == "A")).length = (if 2 ≤ D then 1 else 0) := by
  rcases eq_or_lt_of_le h with h1 | h2
  · refine ⟨[refB1], [], ?_, by decide, ?_⟩
    · rw [← h1]
      exact collect_cyc_one
    · rw [if_neg (by omega)]
      decide
  · have h2' : (2:Int) ≤ D := by omega
    refine ⟨[refB1, refA2], [], collect_cyc_ge_two D h2', by decide, ?_⟩
    rw [if_pos h2']
    decide

/-- C1 witness: the amended theorem applied at D = 2. -/
theorem c1_witness :
    ∃ refs extl, collect cycProgram cycTarget 2 = .ok (refs, extl) ∧
      (refs.filter (fun r => r.sym.name == "B")).length = 1 ∧
      (refs.filter (fun r => r.sym.name == "A")).length = (if (2:Int) ≤ 2 then 1 else 0) :=
  c1_cyclic_each_at_most_once 2 (by decide)

/-- C2 counterexample: in the diamond module the shared helper `F` is
referenced from the two scanned bodies `G` and `H`, and the result of
`Collect` at depth 2 records two `Reference`s with the identical Visited Key
`("m2", "F", position 4)`. -/
theorem c2_counterexample :
    collect diamondProgram diamondTarget 2 = .ok ([refG1, refH1, refF2G, refF2H], []) ∧
    (([refG1, refH1, refF2G, refF2H] : List Reference).filter
      (fun r => r.sym.pkg == "m2" && r.sym.name == "F" && r.sym.pos == 4)).length = 2 :=
  ⟨collect_diamond_two, by decide⟩

/-- C2 (amended): the `(package, name)` deduplication holds within each single
body scan — no two references produced by scanning one declaration body share
the same `(package, name)` pair, so same-named declarations from different
packages stay distinct — but `Collect`'s full result may record a declaration
once per scanned body that references it, so equal Visited Keys can repeat
across bodies (`c2_counterexample`). -/
theorem c2_per_body_dedup (p : Program) (d : Decl) (k : Int) :
    (findReferences p d k).1.Pairwise
      (fun r1 r2 => ¬(r1.sym.pkg = r2.sym.pkg ∧ r1.sym.name = r2.sym.name)) :=
  foldl_refStep_pairwise p k d.name d.body ([], []) (List.Pairwise.nil)

/-- C3: every Reference produced by `Collect` that is marked external is a
stub and carries no source body, and every non-external one has a symbol whose
declaring package is among the loaded module's packages. -/
theorem c3_external_invariant (p : Program) (t : TargetSym) (maxD : Int)
    (refs : List Reference) (extl : List String)
    (hok : collect p t maxD = .ok (refs, extl)) :
    ∀ r ∈ refs,
      (r.external = true → r.stub = true ∧ r.sym.code = "") ∧
      (r.external = false → p.pkgs.contains r.sym.pkg = true) := by
  refine collect_refs_pred p t maxD refs extl _ ?_ hok
  intro d dep _ _ r hr
  refine findReferences_pred p d (dep + 1)
    (fun r => (r.external = true → r.stub = true ∧ r.sym.code = "") ∧
      (r.external = false → p.pkgs.contains r.sym.pkg = true)) ?_ r hr
  intro u ref h
  obtain ⟨_, _, hext, hstub, hpkg, _, hcode⟩ := makeReference_some p u (dep + 1) d.name ref h
  constructor
  · intro he
    rw [hext] at he
    exact ⟨by rw [hstub, he], hcode he⟩
  · intro he
    rw [hext] at he
    rw [hpkg]
    exact isExternalPkg_false p u.pkg he

/-- C3 witness: the invariant evaluated on the concrete run that records the
external `fmt.Println` stub. -/
theorem c3_witness :
    (refPrintln1.external = true → refPrintln1.stub = true ∧ refPrintln1.sym.code = "") ∧
    (refPrintln1.external = false →
      extProgram.pkgs.contains refPrintln1.sym.pkg = true) :=
  c3_external_invariant extProgram extTarget 1 [refY1, refPrintln1] ["fmt.Println"]
    collect_ext_one refPrintln1 (by decide)

/-- C4: every Reference in the list returned by `Collect` with maximum depth
`maxD` has a depth between 1 and `maxD`. -/
theorem c4_depth_bounds (p : Program) (t : TargetSym) (maxD : Int)
    (refs : List Reference) (extl : List String)
    (hok : collect p t maxD = .ok (refs, extl)) :
    ∀ r ∈ refs, 1 ≤ r.depth ∧ r.depth ≤ maxD := by
  refine collect_refs_pred p t maxD refs extl _ ?_ hok
  intro d dep h0 hnd r hr
  have hd := findReferences_depth p d (dep + 1) r hr
  constructor <;> omega

/-- C4 witness: the depth bounds evaluated on a concrete run. -/
theorem c4_witness : 1 ≤ refY1.depth ∧ refY1.depth ≤ 1 :=
  c4_depth_bounds extProgram extTarget 1 [refY1, refPrintln1] ["fmt.Println"]
    collect_ext_one refY1 (by decide)

/-- C5: for every program and target, `Collect` at maximum depth 0 returns an
empty reference list, an empty external list and no error — the target is not
even resolved, so its body is never inspected. -/
theorem c5_depth_zero (p : Program) (t : TargetSym) :
    collect p t 0 = .ok ([], []) := by
  unfold collect
  rw [if_pos rfl]

/-- C6 (amended): the collector does not infer the `Reason` tag from the
syntactic construct at the use site; `makeReference` tags every collected
reference — call, type use or field access alike — with the constant
`"direct-call"` (`// Simplified for now` in the source). -/
theorem c6_reason_constant (p : Program) (t : TargetSym) (maxD : Int)
    (refs : List Reference) (extl : List String)
    (hok : collect p t maxD = .ok (refs, extl)) :
    ∀ r ∈ refs, r.reason = "direct-call" := by
  refine collect_refs_pred p t maxD refs extl _ ?_ hok
  intro d dep _ _ r hr
  refine findReferences_pred p d (dep + 1) (fun r => r.reason = "direct-call") ?_ r hr
  intro u ref h
  exact (makeReference_some p u (dep + 1) d.name ref h).2.1

/-- C6 counterexample: the reference produced for a type use (the use site's
construct is `"type-use"` and the referenced symbol's kind is `"type"`) is
tagged `"direct-call"`, not `"type-reference"` as the claim requires. -/
theorem c6_counterexample :
    collect typeUseProgram typeUseTarget 1 = .ok ([refTy1], []) ∧
    useTy.construct = "type-use" ∧ refTy1.sym.kind = "type" ∧
    refTy1.reason = "direct-call" ∧ ¬(refTy1.reason = "type-reference") :=
  ⟨collect_type_use_one, by decide, by decide, by decide, by decide⟩

/-- C6 witness: the amended theorem evaluated on the concrete type-use run. -/
theorem c6_witness : refTy1.reason = "direct-call" :=
  c6_reason_constant typeUseProgram typeUseTarget 1 [refTy1] []
    collect_type_use_one refTy1 (by decide)

/-- C7: every synthesized interface-relationship reference carries depth one
past the requested maximum (`ExtractSymbol` passes `opts.Depth + 1`), and the
`implements-interface` references and `interface-contract` references match up
pairwise on the same (interface, implementation) name pair. -/
theorem c7_interface_pairing (ms : List InterfaceMapping) (D : Int) :
    (∀ r ∈ extractInterfaceReferences ms (D + 1), r.depth = D + 1) ∧
    (∀ iN mN : String,
      (∃ r ∈ extractInterfaceReferences ms (D + 1),
        r.reason = "implements-interface" ∧ r.referencedBy = iN ∧ r.sym.name = mN) ↔
      (∃ r ∈ extractInterfaceReferences ms (D + 1),
        r.reason = "interface-contract" ∧ r.sym.name = iN ∧ r.referencedBy = mN)) := by
  constructor
  · intro r hr
    rcases (mem_extractInterfaceReferences ms (D + 1) r).mp hr with ⟨m, hm, h⟩
    rcases h with ⟨impl, _, rfl | rfl⟩ | ⟨c, _, rfl⟩ <;> rfl
  · intro iN mN
    constructor
    · rintro ⟨r, hr, hreason, hrefBy, hname⟩
      rcases (mem_extractInterfaceReferences ms (D + 1) r).mp hr with ⟨m, hm, h⟩
      rcases h with ⟨impl, himpl, rfl | rfl⟩ | ⟨c, hc, rfl⟩
      · refine ⟨contractRefOf (D + 1) m impl,
          (mem_extractInterfaceReferences ms (D + 1) _).mpr
            ⟨m, hm, Or.inl ⟨impl, himpl, Or.inr rfl⟩⟩, rfl, ?_, ?_⟩
        · simpa [contractRefOf, implementsRefOf] using hrefBy
        · simpa [contractRefOf, implementsRefOf] using hname
      · simp [contractRefOf] at hreason
      · simp [returnsRefOf] at hreason
    · rintro ⟨r, hr, hreason, hname, hrefBy⟩
      rcases (mem_extractInterfaceReferences ms (D + 1) r).mp hr with ⟨m, hm, h⟩
      rcases h with ⟨impl, himpl, rfl | rfl⟩ | ⟨c, hc, rfl⟩
      · simp [implementsRefOf] at hreason
      · refine ⟨implementsRefOf (D + 1) m impl,
          (mem_extractInterfaceReferences ms (D + 1) _).mpr
            ⟨m, hm, Or.inl ⟨impl, himpl, Or.inl rfl⟩⟩, rfl, ?_, ?_⟩
        · simpa [contractRefOf, implementsRefOf] using hname
        · simpa [contractRefOf, implementsRefOf] using hrefBy
      · simp [returnsRefOf] at hreason

/-- C7 witness: the pairing theorem evaluated on the sample mapping at
requested depth 1 (synthesized depth 2). -/
theorem c7_witness :
    (implementsRefOf (1 + 1) sampleMapping implS).depth = 1 + 1 ∧
    (∃ r ∈ extractInterfaceReferences [sampleMapping] (1 + 1),
      r.reason = "interface-contract" ∧ r.sym.name = "I" ∧ r.referencedBy = "S") :=
  ⟨(c7_interface_pairing [sampleMapping] 1).1 (implementsRefOf (1 + 1) sampleMapping implS)
      (by decide),
   ((c7_interface_pairing [sampleMapping] 1).2 "I" "S").mp
      ⟨implementsRefOf (1 + 1) sampleMapping implS, by decide, rfl, by decide, by decide⟩⟩

/-- C8: a function symbol is recorded as a mapping's constructor only if its
name is `New`/`Create`/`Make` + the interface name and its first declared
result's named type equals that interface (same name and package); and in the
analyzer's output no two distinct mappings hold the same constructor
function. -/
theorem c8_constructor_match (o : Oracle) (symbols : List Symbol) :
    (∀ iface c, findConstructor o iface symbols = some c →
      c.kind = "func" ∧
      (c.name = "New" ++ iface.name ∨ c.name = "Create" ++ iface.name ∨
        c.name = "Make" ++ iface.name) ∧
      o.firstResultNamed c.pkg c.name = some (iface.name, iface.pkg)) ∧
    (analyzeInterfaces o symbols).Pairwise (fun m1 m2 =>
      ∀ c1 c2, m1.ctor = some c1 → m2.ctor = some c2 →
        ¬(c1.pkg = c2.pkg ∧ c1.name = c2.name)) := by
  constructor
  · intro iface c h
    exact findConstructor_sound o iface symbols c h
  · obtain ⟨hpw, hctor⟩ := analyzeInterfaces_spec o symbols
    refine pairwise_imp_mem ?_ hpw
    intro m1 m2 h1mem h2mem hkey c1 c2 hc1 hc2 hcon
    have s1 := findConstructor_sound o m1.iface symbols c1 (by rw [← hctor m1 h1mem]; exact hc1)
    have s2 := findConstructor_sound o m2.iface symbols c2 (by rw [← hctor m2 h2mem]; exact hc2)
    apply hkey
    have e1 := s1.2.2
    rw [hcon.1, hcon.2] at e1
    rw [s2.2.2] at e1
    injection e1 with e2
    unfold ifaceKey
    rw [(Prod.mk.injEq _ _ _ _).mp e2 |>.1, (Prod.mk.injEq _ _ _ _).mp e2 |>.2]

/-- C8 witness: the naming/return-type conditions evaluated on the concrete
sample where `findConstructor` finds `NewJ`. -/
theorem c8_witness :
    ctorNewJFound.kind = "func" ∧
    (ctorNewJFound.name = "New" ++ ifaceJ.name ∨
      ctorNewJFound.name = "Create" ++ ifaceJ.name ∨
      ctorNewJFound.name = "Make" ++ ifaceJ.name) ∧
    c8Oracle.firstResultNamed ctorNewJFound.pkg ctorNewJFound.name =
      some (ifaceJ.name, ifaceJ.pkg) :=
  (c8_constructor_match c8Oracle [ctorNewJ]).1 ifaceJ ctorNewJFound (by decide)

/-- C9: `DetectFramework` tests wire, then fx, then manual, first match wins:
a wire program is always classified `"wire"`; `"fx"` exactly when not wire but
fx; `"manual"` exactly when neither wire nor fx and some package-scope
function has a `New`-prefixed name and at least one parameter; `"none"`
otherwise. -/
theorem c9_detect_order (d : DIProgram) :
    (hasWire d = true → detectFramework d = "wire") ∧
    (detectFramework d = "fx" ↔ hasWire d = false ∧ hasFx d = true) ∧
    (detectFramework d = "manual" ↔
      hasWire d = false ∧ hasFx d = false ∧
      ∃ p ∈ d.pkgs, ∃ f ∈ p.scopeFuncs, f.1.startsWith "New" = true ∧ 0 < f.2) ∧
    (detectFramework d = "none" ↔
      hasWire d = false ∧ hasFx d = false ∧ hasManualDI d = false) := by
  have hmanual : hasManualDI d = true ↔
      ∃ p ∈ d.pkgs, ∃ f ∈ p.scopeFuncs, f.1.startsWith "New" = true ∧ 0 < f.2 := by
    simp [hasManualDI, List.any_eq_true, Bool.and_eq_true]
  unfold detectFramework
  by_cases hw : hasWire d = true
  · simp [hw]
  · rw [Bool.not_eq_true] at hw
    by_cases hf : hasFx d = true
    · simp [hw, hf]
    · rw [Bool.not_eq_true] at hf
      by_cases hm : hasManualDI d = true
      · simp only [hw, hf, hm, Bool.false_eq_true, if_false, if_true]
        refine ⟨fun h => h.elim, ?_, ?_, ?_⟩
        · exact ⟨fun h => absurd h (by decide), fun h => h.2.elim⟩
        · exact ⟨fun _ => ⟨trivial, trivial, hmanual.mp hm⟩, fun _ => trivial⟩
        · exact ⟨fun h => absurd h (by decide), fun h => absurd h.2.2 (by decide)⟩
      · rw [Bool.not_eq_true] at hm
        simp only [hw, hf, hm, Bool.false_eq_true, if_false]
        refine ⟨fun h => h.elim, ?_, ?_, ?_⟩
        · exact ⟨fun h => absurd h (by decide), fun h => h.2.elim⟩
        · exact ⟨fun h => absurd h (by decide),
            fun h => absurd (hm.symm.trans (hmanual.mpr h.2.2)) (by decide)⟩
        · exact ⟨fun _ => ⟨trivial, trivial, trivial⟩, fun _ => trivial⟩

/-- C9 witness: the wire program is classified `"wire"` even though it also
matches the manual convention. -/
theorem c9_witness : detectFramework wireProgram = "wire" :=
  (c9_detect_order wireProgram).1 (by decide)

/-- C10: `ExtractSymbol` silently replaces a negative requested depth with 1
before collecting, so an extraction at any negative depth behaves exactly like
a depth-1 extraction. -/
theorem c10_negative_depth (p : Program) (o : Oracle) (dip : DIProgram)
    (t : TargetSym) (depth : Int) (h : depth < 0) :
    extractSymbolRun p o dip t depth = extractSymbolRun p o dip t 1 := by
  unfold extractSymbolRun
  rw [if_pos h, if_neg (by omega)]

/-- C10 witness: the theorem applied at requested depth −1 on the concrete
module with an external reference. -/
theorem c10_witness :
    extractSymbolRun extProgram c8Oracle emptyDIProgram extTarget (-1) =
      extractSymbolRun extProgram c8Oracle emptyDIProgram extTarget 1 :=
  c10_negative_depth extProgram c8Oracle emptyDIProgram extTarget (-1) (by decide)

end GoScope
